import Mathlib

/-
Shallow embedding of `src/crowdin/parse_xliff.py`.

Modelling conventions:
* Python dicts keyed by strings are association lists; assignment `d[k] = v`
  replaces the value in place when the key exists and appends otherwise,
  matching CPython's insertion-order semantics.
* An optional XML child element whose `.text` may itself be `None` is
  `Option (Option String)`: `none` = element absent, `some none` = element
  present with no text, `some (some s)` = element present with text `s`.
  Python truthiness of `elem.text` treats the empty string like `None`.
* A document body is the list, in document order, of standalone trans-units
  and of groups (with their `restype` attribute and their member trans-units),
  which is exactly the shape the two `findall` scans of the source consume:
  `.//trans-unit` sees standalone units and group members alike, while
  `group.findall('trans-unit')` sees only a group's direct members.
* Exceptions are `Except`: `ValueError` for the two header checks,
  `AttributeError` for `None.split` on a text-less plural-form context,
  `FileNotFoundError` / the wrapping `ValueError` in the aggregator.
* Warnings that the source prints to the console are collected in a list,
  recording exactly the data interpolated into the printed message.
-/

namespace Xliff

/-- Python dict membership test `k in d`. -/
def dictContains {α : Type} (d : List (String × α)) (k : String) : Bool :=
  match d with
  | [] => false
  | (k', _) :: rest => if k' = k then true else dictContains rest k

/-- Python dict assignment `d[k] = v`: replace in place if present, else append. -/
def dictInsert {α : Type} (d : List (String × α)) (k : String) (v : α) :
    List (String × α) :=
  match d with
  | [] => [(k, v)]
  | (k', v') :: rest =>
    if k' = k then (k', v) :: rest else (k', v') :: dictInsert rest k v

/-- Python dict lookup `d.get(k)`. -/
def dictLookup {α : Type} (d : List (String × α)) (k : String) : Option α :=
  match d with
  | [] => none
  | (k', v) :: rest => if k' = k then some v else dictLookup rest k

/-- Python `str.split(':')` on the character list of a string
(always at least one segment). -/
def splitOnColon : List Char → List (List Char)
  | [] => [[]]
  | c :: rest =>
    match splitOnColon rest with
    | seg :: segs =>
      if c = ':' then [] :: seg :: segs else (c :: seg) :: segs
    | [] => [[c]]

/-- Python `str.strip()` on a character list. -/
def stripChars (cs : List Char) : List Char :=
  ((cs.dropWhile Char.isWhitespace).reverse.dropWhile Char.isWhitespace).reverse

/-- Line 75 of the source: `text.split(':')[-1].strip().lower()`. -/
def pyFormOf (txt : String) : String :=
  ⟨(stripChars ((splitOnColon txt.toList).getLastD [])).map Char.toLower⟩

/-- Python truthiness of `elem is not None and elem.text`. -/
def pyTruthyText : Option (Option String) → Bool
  | some (some s) => !(s == "")
  | _ => false

/-- The `context-group` child of a trans-unit: at most one context element of
context-type `x-plural-form`, which may itself have no text. -/
structure ContextGroup where
  pluralFormCtx : Option (Option String)
deriving Repr, DecidableEq

/-- One `trans-unit` element: optional `resname` and `id` attributes and the
optional `target`, `source` and `context-group` children. -/
structure TransUnitData where
  resname : Option String
  id : Option String
  target : Option (Option String)
  source : Option (Option String)
  contextGroup : Option ContextGroup
deriving Repr, DecidableEq

/-- An element of the document body in document order: a standalone
trans-unit, or a group carrying a `restype` attribute and member units. -/
inductive BodyItem where
  | unit (tu : TransUnitData)
  | group (restype : Option String) (units : List TransUnitData)
deriving Repr, DecidableEq

/-- The parsed XML document: presence of the `file` child, its optional
`target-language` attribute, and the body elements. -/
structure XliffRoot where
  file : Option (Option String)
  body : List BodyItem
deriving Repr, DecidableEq

/-- `findall('.//group[@restype="x-gettext-plurals"]')` followed by each
group's `findall('trans-unit')`: the member lists of the plural groups. -/
def docPluralGroups (body : List BodyItem) : List (List TransUnitData) :=
  body.filterMap fun item =>
    match item with
    | .group rt us => if rt = some "x-gettext-plurals" then some us else none
    | .unit _ => none

/-- `findall('.//trans-unit')`: every trans-unit in document order,
group members included. -/
def docUnits (body : List BodyItem) : List TransUnitData :=
  body.flatMap fun item =>
    match item with
    | .unit tu => [tu]
    | .group _ us => us

/-- A translation entry: tagged `string` or `plural` exactly as in the
output JSON. -/
inductive Entry where
  | string (value : String)
  | plural (forms : List (String × String))
deriving Repr, DecidableEq

/-- One fallback warning printed by the source: the resource key (`None`
possible on the plural path), the plural form if any, and the locale. -/
structure Warning where
  key : Option String
  form : Option String
  locale : String
deriving Repr, DecidableEq

abbrev Translations := List (String × Entry)

/-- The exceptions `parse_xliff_file` can raise. -/
inductive ParseError where
  | invalidStructure
  | missingTargetLanguage
  | attributeError
deriving Repr, DecidableEq

/-- The return value of `parse_xliff_file`, with the printed warnings
collected. -/
structure ParseResult where
  translations : Translations
  target_language : String
  warnings : List Warning
deriving Repr, DecidableEq

/-- `trans_unit.get('resname') or trans_unit.get('id')`: Python `or`
falls through on `None` and on the empty string. -/
def resolveKey (tu : TransUnitData) : Option String :=
  match tu.resname with
  | some s => if s = "" then tu.id else some s
  | none => tu.id

/-- `if resname is None: resname = trans_unit.get('resname') or ...`. -/
def updateResname (rn : Option String) (tu : TransUnitData) : Option String :=
  match rn with
  | none => resolveKey tu
  | some s => some s

/-- Lines 77-84: choose target text when present and non-empty, else source
text when present and non-empty, else nothing; the flag records whether the
source-fallback branch (the warning branch) was taken. -/
def pluralDecision (target source : Option (Option String)) :
    Option (String × Bool) :=
  match target with
  | some (some t) =>
    if t = "" then
      match source with
      | some (some s) => if s = "" then none else some (s, true)
      | _ => none
    else some (t, false)
  | _ =>
    match source with
    | some (some s) => if s = "" then none else some (s, true)
    | _ => none

/-- Lines 100-112: the same choice on the singular path. -/
def singularDecision (target source : Option (Option String)) :
    Option (String × Bool) :=
  match target with
  | some (some t) =>
    if t = "" then
      match source with
      | some (some s) => if s = "" then none else some (s, true)
      | _ => none
    else some (t, false)
  | _ =>
    match source with
    | some (some s) => if s = "" then none else some (s, true)
    | _ => none

/-- State of the per-group loop: the resolved resource key so far, the
`plural_forms` dict, and the warnings printed so far. -/
abbrev PluralState := Option String × List (String × String) × List Warning

/-- Body of the `for trans_unit in group.findall(...)` loop (lines 61-83):
resolve the key if still unresolved, then, when a plural-form context with
text is present, compute the form label and apply the fallback choice.
A plural-form context element with no text raises `AttributeError`
(`None.split`). -/
def pluralUnitStep (tl : String) (warn : Bool) (st : PluralState)
    (tu : TransUnitData) : Except ParseError PluralState :=
  let rn := updateResname st.1 tu
  match tu.contextGroup with
  | none => .ok (rn, st.2.1, st.2.2)
  | some cg =>
    match cg.pluralFormCtx with
    | none => .ok (rn, st.2.1, st.2.2)
    | some none => .error .attributeError
    | some (some txt) =>
      let form := pyFormOf txt
      match pluralDecision tu.target tu.source with
      | some (v, false) => .ok (rn, dictInsert st.2.1 form v, st.2.2)
      | some (v, true) =>
        .ok (rn, dictInsert st.2.1 form v,
          if warn then st.2.2 ++ [⟨rn, some form, tl⟩] else st.2.2)
      | none => .ok (rn, st.2.1, st.2.2)

/-- The member loop of one plural group. -/
def pluralUnitsFold (tl : String) (warn : Bool) (st : PluralState) :
    List TransUnitData → Except ParseError PluralState
  | [] => .ok st
  | tu :: rest =>
    match pluralUnitStep tl warn st tu with
    | .error e => .error e
    | .ok st' => pluralUnitsFold tl warn st' rest

/-- Lines 57-89 for one group: run the member loop, then
`if resname and plural_forms:` store a `plural` entry. -/
def processGroup (tl : String) (warn : Bool)
    (acc : Translations × List Warning) (g : List TransUnitData) :
    Except ParseError (Translations × List Warning) :=
  match pluralUnitsFold tl warn (none, [], acc.2) g with
  | .error e => .error e
  | .ok (rn, forms, ws) =>
    match rn with
    | some s =>
      if s = "" then .ok (acc.1, ws)
      else if forms = [] then .ok (acc.1, ws)
      else .ok (dictInsert acc.1 s (.plural forms), ws)
    | none => .ok (acc.1, ws)

/-- The `for group in root.findall(...)` loop over all plural groups. -/
def pluralPass (tl : String) (warn : Bool)
    (acc : Translations × List Warning) :
    List (List TransUnitData) → Except ParseError (Translations × List Warning)
  | [] => .ok acc
  | g :: gs =>
    match processGroup tl warn acc g with
    | .error e => .error e
    | .ok acc' => pluralPass tl warn acc' gs

/-- Body of the singular loop (lines 92-112): skip units with no resolvable
key and keys already present in `translations`, else apply the fallback
choice and store a `string` entry. -/
def singularStep (tl : String) (warn : Bool)
    (st : Translations × List Warning) (tu : TransUnitData) :
    Translations × List Warning :=
  match resolveKey tu with
  | none => st
  | some k =>
    if dictContains st.1 k then st
    else
      match singularDecision tu.target tu.source with
      | none => st
      | some (v, false) => (dictInsert st.1 k (.string v), st.2)
      | some (v, true) =>
        (dictInsert st.1 k (.string v),
         if warn then st.2 ++ [⟨some k, none, tl⟩] else st.2)

/-- The `for trans_unit in root.findall('.//trans-unit')` loop. -/
def singularPass (tl : String) (warn : Bool)
    (st : Translations × List Warning) :
    List TransUnitData → Translations × List Warning
  | [] => st
  | tu :: rest => singularPass tl warn (singularStep tl warn st tu) rest

/-- `parse_xliff_file`: header validation, plural-group pass, singular pass. -/
def parse_xliff_file (doc : XliffRoot) (warn_on_missing_target : Bool := true) :
    Except ParseError ParseResult :=
  match doc.file with
  | none => .error .invalidStructure
  | some none => .error .missingTargetLanguage
  | some (some tl) =>
    match pluralPass tl warn_on_missing_target ([], [])
        (docPluralGroups doc.body) with
    | .error e => .error e
    | .ok acc =>
      let final := singularPass tl warn_on_missing_target acc (docUnits doc.body)
      .ok ⟨final.1, tl, final.2⟩

/-- `validate_translations`: the explicit stub, returning no findings. -/
def validate_translations (_translations : Translations) (_locale : String) :
    List String :=
  []

/-- One configured language; only its `locale` field is read by the code. -/
structure Language where
  locale : String
deriving Repr, DecidableEq

/-- The values returned by the external `setup_generation` collaborator. -/
structure SetupValues where
  source_language : Language
  target_languages : List Language
  rtl_languages : List String
deriving Repr, DecidableEq

/-- The errors `parse_all_xliff_files` can raise: `FileNotFoundError` for a
missing per-locale file, and the `ValueError` wrapping any exception from
one locale with that locale's identifier. -/
inductive AggError where
  | fileNotFound (locale : String)
  | localeProcessing (locale : String) (cause : ParseError)
deriving Repr, DecidableEq

/-- The per-locale record stored in `parsed_locales`. -/
structure LocaleResult where
  target_language : String
  translations : Translations
  language_info : Language
deriving Repr, DecidableEq

/-- The combined output of `parse_all_xliff_files`. -/
structure AggregatedResult where
  source_language : Language
  target_languages : List Language
  rtl_languages : List String
  glossary : List (String × String)
  locales : List (String × LocaleResult)
deriving Repr, DecidableEq

/-- The `for language in all_languages` loop (lines 142-168): check the
file exists, parse it, wrap any parse failure with the locale identifier,
and record the per-locale result. The filesystem is modelled as a map from
locale to the parsed document of `{locale}.xliff` when that file exists. -/
def processLocales (files : String → Option XliffRoot) :
    List Language → List (String × LocaleResult) →
    Except AggError (List (String × LocaleResult))
  | [], acc => .ok acc
  | lang :: rest, acc =>
    match files lang.locale with
    | none => .error (.fileNotFound lang.locale)
    | some doc =>
      match parse_xliff_file doc with
      | .error e => .error (.localeProcessing lang.locale e)
      | .ok r =>
        processLocales files rest
          (dictInsert acc lang.locale ⟨r.target_language, r.translations, lang⟩)

/-- `parse_all_xliff_files`: the configuration resolver's output and the
glossary loader's output are external inputs passed through unchanged. -/
def parse_all_xliff_files (setup : SetupValues)
    (glossary_dict : List (String × String))
    (files : String → Option XliffRoot) : Except AggError AggregatedResult :=
  match processLocales files ([setup.source_language] ++ setup.target_languages) [] with
  | .error e => .error e
  | .ok locales =>
    .ok ⟨setup.source_language, setup.target_languages, setup.rtl_languages,
         glossary_dict, locales⟩

/-! ### Association-list (Python dict) lemmas -/

theorem dictLookup_insert_self {α : Type} (d : List (String × α)) (k : String)
    (v : α) : dictLookup (dictInsert d k v) k = some v := by
  induction d with
  | nil => simp [dictInsert, dictLookup]
  | cons hd rest ih =>
    obtain ⟨k', v'⟩ := hd
    by_cases h : k' = k
    · simp [dictInsert, dictLookup, h]
    · simp [dictInsert, dictLookup, h, ih]

theorem dictLookup_insert_ne {α : Type} (d : List (String × α)) (k k' : String)
    (v : α) (h : k ≠ k') :
    dictLookup (dictInsert d k v) k' = dictLookup d k' := by
  induction d with
  | nil => simp [dictInsert, dictLookup, h]
  | cons hd rest ih =>
    obtain ⟨k₀, v₀⟩ := hd
    by_cases h₀ : k₀ = k
    · subst h₀
      simp [dictInsert, dictLookup, h]
    · simp only [dictInsert, if_neg h₀]
      by_cases h₁ : k₀ = k'
      · simp [dictLookup, h₁]
      · simp [dictLookup, h₁, ih]

theorem dictContains_iff_lookup {α : Type} (d : List (String × α)) (k : String) :
    dictContains d k = true ↔ ∃ v, dictLookup d k = some v := by
  induction d with
  | nil => simp [dictContains, dictLookup]
  | cons hd rest ih =>
    obtain ⟨k', v'⟩ := hd
    by_cases h : k' = k
    · simp [dictContains, dictLookup, h]
    · simp [dictContains, dictLookup, h, ih]

theorem dictContains_false_iff {α : Type} (d : List (String × α)) (k : String) :
    dictContains d k = false ↔ k ∉ d.map Prod.fst := by
  induction d with
  | nil => simp [dictContains]
  | cons hd rest ih =>
    obtain ⟨k', v'⟩ := hd
    by_cases h : k' = k
    · simp [dictContains, h]
    · simp only [dictContains, if_neg h, List.map_cons, List.mem_cons, ih]
      constructor
      · intro hk hor
        rcases hor with h1 | h1
        · exact h h1.symm
        · exact hk h1
      · intro hk h1
        exact hk (Or.inr h1)

theorem dictInsert_not_contains {α : Type} (d : List (String × α)) (k : String)
    (v : α) (h : dictContains d k = false) : dictInsert d k v = d ++ [(k, v)] := by
  induction d with
  | nil => simp [dictInsert]
  | cons hd rest ih =>
    obtain ⟨k', v'⟩ := hd
    simp only [dictContains] at h
    by_cases h₀ : k' = k
    · simp [h₀] at h
    · simp only [if_neg h₀] at h
      simp [dictInsert, h₀, ih h]

theorem dictInsert_keys_contains {α : Type} (d : List (String × α)) (k : String)
    (v : α) (h : dictContains d k = true) :
    (dictInsert d k v).map Prod.fst = d.map Prod.fst := by
  induction d with
  | nil => simp [dictContains] at h
  | cons hd rest ih =>
    obtain ⟨k', v'⟩ := hd
    simp only [dictContains] at h
    by_cases h₀ : k' = k
    · simp [dictInsert, h₀]
    · simp only [if_neg h₀] at h
      simp [dictInsert, h₀, ih h]

/-- The keys of an association list are pairwise distinct. -/
def nodupKeys {α : Type} (d : List (String × α)) : Prop :=
  (d.map Prod.fst).Nodup

theorem nodupKeys_insert {α : Type} (d : List (String × α)) (k : String) (v : α)
    (h : nodupKeys d) : nodupKeys (dictInsert d k v) := by
  cases hc : dictContains d k with
  | true => unfold nodupKeys; rw [dictInsert_keys_contains d k v hc]; exact h
  | false =>
    unfold nodupKeys
    rw [dictInsert_not_contains d k v hc]
    rw [List.map_append]
    simp only [List.map_cons, List.map_nil]
    rw [List.nodup_append]
    refine ⟨h, List.nodup_singleton k, ?_⟩
    intro a ha hb
    simp only [List.mem_singleton] at hb
    subst hb
    exact (dictContains_false_iff d a).mp hc ha

theorem dictLookup_eq_of_mem_nodup {α : Type} (d : List (String × α))
    (k : String) (v : α) (hnd : nodupKeys d) (hm : (k, v) ∈ d) :
    dictLookup d k = some v := by
  induction d with
  | nil => simp at hm
  | cons hd rest ih =>
    obtain ⟨k', v'⟩ := hd
    simp only [nodupKeys, List.map_cons, List.nodup_cons] at hnd
    rcases List.mem_cons.mp hm with heq | hmem
    · injection heq with h1 h2
      subst h1; subst h2
      simp [dictLookup]
    · by_cases h : k' = k
      · subst h
        exact absurd (List.mem_map.mpr ⟨(k', v), hmem, rfl⟩) hnd.1
      · simp only [dictLookup, if_neg h]
        exact ih hnd.2 hmem

/-! ### Decision-function lemmas -/

theorem singularDecision_target (t : String) (ht : t ≠ "")
    (src : Option (Option String)) :
    singularDecision (some (some t)) src = some (t, false) := by
  simp [singularDecision, ht]

theorem singularDecision_fallback (target : Option (Option String))
    (htg : pyTruthyText target = false) (s : String) (hs : s ≠ "") :
    singularDecision target (some (some s)) = some (s, true) := by
  match target with
  | none => simp [singularDecision, hs]
  | some none => simp [singularDecision, hs]
  | some (some t) =>
    simp only [pyTruthyText, Bool.not_eq_false'] at htg
    have ht : t = "" := by simpa using htg
    simp [singularDecision, ht, hs]

theorem singularDecision_neither (target source : Option (Option String))
    (htg : pyTruthyText target = false) (hsrc : pyTruthyText source = false) :
    singularDecision target source = none := by
  match target, source with
  | none, none | none, some none | some none, none | some none, some none =>
    simp [singularDecision]
  | none, some (some s) | some none, some (some s) =>
    simp only [pyTruthyText, Bool.not_eq_false'] at hsrc
    have : s = "" := by simpa using hsrc
    simp [singularDecision, this]
  | some (some t), none | some (some t), some none =>
    simp only [pyTruthyText, Bool.not_eq_false'] at htg
    have : t = "" := by simpa using htg
    simp [singularDecision, this]
  | some (some t), some (some s) =>
    simp only [pyTruthyText, Bool.not_eq_false'] at htg hsrc
    have ht : t = "" := by simpa using htg
    have hs : s = "" := by simpa using hsrc
    simp [singularDecision, ht, hs]

theorem pluralDecision_eq_singularDecision (t s : Option (Option String)) :
    pluralDecision t s = singularDecision t s := rfl

/-! ### Plural-pass lemmas -/

/-- A member unit whose plural-form context element is present but has no
text: the only input on which line 75 raises `AttributeError`. -/
def isBadUnit (tu : TransUnitData) : Bool :=
  match tu.contextGroup with
  | some cg => cg.pluralFormCtx = some none
  | none => false

theorem pluralUnitStep_bad (tl : String) (warn : Bool) (st : PluralState)
    (tu : TransUnitData) (h : isBadUnit tu = true) :
    pluralUnitStep tl warn st tu = .error .attributeError := by
  unfold isBadUnit at h
  cases hcg : tu.contextGroup with
  | none => rw [hcg] at h; cases h
  | some cg =>
    rw [hcg] at h
    have hpf : cg.pluralFormCtx = some none := by simpa using h
    simp [pluralUnitStep, hcg, hpf]

theorem pluralUnitStep_not_bad (tl : String) (warn : Bool) (st : PluralState)
    (tu : TransUnitData) (h : isBadUnit tu = false) :
    ∃ st', pluralUnitStep tl warn st tu = .ok st' := by
  unfold isBadUnit at h
  cases hcg : tu.contextGroup with
  | none =>
    exact ⟨(updateResname st.1 tu, st.2.1, st.2.2), by simp [pluralUnitStep, hcg]⟩
  | some cg =>
    rw [hcg] at h
    simp at h
    cases hpf : cg.pluralFormCtx with
    | none =>
      exact ⟨(updateResname st.1 tu, st.2.1, st.2.2),
        by simp [pluralUnitStep, hcg, hpf]⟩
    | some txtOpt =>
      cases txtOpt with
      | none => exact absurd hpf h
      | some txt =>
        cases hd : pluralDecision tu.target tu.source with
        | none =>
          exact ⟨(updateResname st.1 tu, st.2.1, st.2.2),
            by simp [pluralUnitStep, hcg, hpf, hd]⟩
        | some p =>
          obtain ⟨v, fb⟩ := p
          cases fb with
          | false =>
            exact ⟨(updateResname st.1 tu, dictInsert st.2.1 (pyFormOf txt) v,
                st.2.2),
              by simp [pluralUnitStep, hcg, hpf, hd]⟩
          | true =>
            exact ⟨(updateResname st.1 tu, dictInsert st.2.1 (pyFormOf txt) v,
                if warn then
                  st.2.2 ++ [⟨updateResname st.1 tu, some (pyFormOf txt), tl⟩]
                else st.2.2),
              by simp [pluralUnitStep, hcg, hpf, hd]⟩

theorem pluralUnitStep_error (tl : String) (warn : Bool) (st : PluralState)
    (tu : TransUnitData) (e : ParseError)
    (h : pluralUnitStep tl warn st tu = .error e) :
    e = .attributeError ∧ isBadUnit tu = true := by
  cases hb : isBadUnit tu with
  | true =>
    have := pluralUnitStep_bad tl warn st tu hb
    rw [this] at h
    injection h with h
    exact ⟨h.symm, rfl⟩
  | false =>
    obtain ⟨st', hst'⟩ := pluralUnitStep_not_bad tl warn st tu hb
    rw [hst'] at h
    cases h

theorem pluralUnitsFold_error (tl : String) (warn : Bool) (st : PluralState)
    (us : List TransUnitData) (e : ParseError)
    (h : pluralUnitsFold tl warn st us = .error e) : e = .attributeError := by
  induction us generalizing st with
  | nil => simp [pluralUnitsFold] at h
  | cons tu rest ih =>
    simp only [pluralUnitsFold] at h
    cases hs : pluralUnitStep tl warn st tu with
    | error e' =>
      rw [hs] at h
      injection h with h
      exact h ▸ (pluralUnitStep_error tl warn st tu e' hs).1
    | ok st' =>
      rw [hs] at h
      exact ih st' h

theorem pluralUnitsFold_error_iff (tl : String) (warn : Bool) (st : PluralState)
    (us : List TransUnitData) :
    pluralUnitsFold tl warn st us = .error .attributeError ↔
      ∃ tu ∈ us, isBadUnit tu = true := by
  induction us generalizing st with
  | nil => simp [pluralUnitsFold]
  | cons tu rest ih =>
    simp only [pluralUnitsFold]
    cases hb : isBadUnit tu with
    | true =>
      rw [pluralUnitStep_bad tl warn st tu hb]
      simp only [List.mem_cons]
      exact ⟨fun _ => ⟨tu, Or.inl rfl, hb⟩, fun _ => trivial⟩
    | false =>
      obtain ⟨st', hst'⟩ := pluralUnitStep_not_bad tl warn st tu hb
      rw [hst']
      rw [ih st']
      constructor
      · rintro ⟨u, hu, hbu⟩
        exact ⟨u, List.mem_cons_of_mem tu hu, hbu⟩
      · rintro ⟨u, hu, hbu⟩
        rcases List.mem_cons.mp hu with rfl | hu'
        · rw [hb] at hbu; cases hbu
        · exact ⟨u, hu', hbu⟩

theorem processGroup_error (tl : String) (warn : Bool)
    (acc : Translations × List Warning) (g : List TransUnitData) (e : ParseError)
    (h : processGroup tl warn acc g = .error e) :
    e = .attributeError ∧ ∃ tu ∈ g, isBadUnit tu = true := by
  unfold processGroup at h
  cases hf : pluralUnitsFold tl warn (none, [], acc.2) g with
  | error e' =>
    rw [hf] at h
    injection h with h
    subst h
    have he' := pluralUnitsFold_error tl warn _ g _ hf
    subst he'
    exact ⟨rfl, (pluralUnitsFold_error_iff tl warn _ g).mp hf⟩
  | ok st' =>
    obtain ⟨rn, forms, ws⟩ := st'
    rw [hf] at h
    cases rn with
    | none => cases h
    | some s =>
      by_cases hs : s = ""
      · simp [hs] at h
      · by_cases hforms : forms = []
        · simp [hs, hforms] at h
        · simp [hs, hforms] at h

theorem processGroup_bad (tl : String) (warn : Bool)
    (acc : Translations × List Warning) (g : List TransUnitData)
    (h : ∃ tu ∈ g, isBadUnit tu = true) :
    processGroup tl warn acc g = .error .attributeError := by
  unfold processGroup
  rw [(pluralUnitsFold_error_iff tl warn (none, [], acc.2) g).mpr h]

theorem processGroup_not_bad (tl : String) (warn : Bool)
    (acc : Translations × List Warning) (g : List TransUnitData)
    (h : ∀ tu ∈ g, isBadUnit tu = false) :
    ∃ acc', processGroup tl warn acc g = .ok acc' := by
  cases hp : processGroup tl warn acc g with
  | ok a => exact ⟨a, rfl⟩
  | error e =>
    obtain ⟨_, tu, htu, hb⟩ := processGroup_error tl warn acc g e hp
    rw [h tu htu] at hb
    cases hb

theorem pluralPass_error (tl : String) (warn : Bool)
    (acc : Translations × List Warning) (gs : List (List TransUnitData))
    (e : ParseError) (h : pluralPass tl warn acc gs = .error e) :
    e = .attributeError ∧ ∃ g ∈ gs, ∃ tu ∈ g, isBadUnit tu = true := by
  induction gs generalizing acc with
  | nil => simp [pluralPass] at h
  | cons g rest ih =>
    simp only [pluralPass] at h
    cases hg : processGroup tl warn acc g with
    | error e' =>
      rw [hg] at h
      injection h with h
      subst h
      obtain ⟨he, tu, htu, hb⟩ := processGroup_error tl warn acc g _ hg
      exact ⟨he, g, List.mem_cons_self g rest, tu, htu, hb⟩
    | ok acc' =>
      rw [hg] at h
      obtain ⟨he, g', hg', tu, htu, hb⟩ := ih acc' h
      exact ⟨he, g', List.mem_cons_of_mem g hg', tu, htu, hb⟩

theorem pluralPass_bad (tl : String) (warn : Bool)
    (acc : Translations × List Warning) (gs : List (List TransUnitData))
    (h : ∃ g ∈ gs, ∃ tu ∈ g, isBadUnit tu = true) :
    pluralPass tl warn acc gs = .error .attributeError := by
  induction gs generalizing acc with
  | nil => simp at h
  | cons g rest ih =>
    obtain ⟨g', hg', tu, htu, hb⟩ := h
    simp only [pluralPass]
    rcases List.mem_cons.mp hg' with rfl | hmem
    · rw [processGroup_bad tl warn acc g' ⟨tu, htu, hb⟩]
    · cases hp : processGroup tl warn acc g with
      | error e =>
        have := (processGroup_error tl warn acc g e hp).1
        subst this
        rfl
      | ok acc' => exact ih acc' ⟨g', hmem, tu, htu, hb⟩

theorem pluralPass_ok_of_no_bad (tl : String) (warn : Bool)
    (acc : Translations × List Warning) (gs : List (List TransUnitData))
    (h : ∀ g ∈ gs, ∀ tu ∈ g, isBadUnit tu = false) :
    ∃ acc', pluralPass tl warn acc gs = .ok acc' := by
  cases hp : pluralPass tl warn acc gs with
  | ok a => exact ⟨a, rfl⟩
  | error e =>
    obtain ⟨_, g, hg, tu, htu, hb⟩ := pluralPass_error tl warn acc gs e hp
    rw [h g hg tu htu] at hb
    cases hb

theorem processGroup_nodup (tl : String) (warn : Bool)
    (acc acc' : Translations × List Warning) (g : List TransUnitData)
    (h : nodupKeys acc.1) (hok : processGroup tl warn acc g = .ok acc') :
    nodupKeys acc'.1 := by
  unfold processGroup at hok
  cases hf : pluralUnitsFold tl warn (none, [], acc.2) g with
  | error e => rw [hf] at hok; cases hok
  | ok st' =>
    obtain ⟨rn, forms, ws⟩ := st'
    rw [hf] at hok
    cases rn with
    | none => injection hok with hok; rw [← hok]; exact h
    | some s =>
      by_cases hs : s = ""
      · simp only [if_pos hs] at hok
        injection hok with hok; rw [← hok]; exact h
      · by_cases hforms : forms = []
        · simp only [if_neg hs, if_pos hforms] at hok
          injection hok with hok; rw [← hok]; exact h
        · simp only [if_neg hs, if_neg hforms] at hok
          injection hok with hok
          rw [← hok]
          exact nodupKeys_insert acc.1 s (.plural forms) h

theorem pluralPass_nodup (tl : String) (warn : Bool)
    (acc acc' : Translations × List Warning) (gs : List (List TransUnitData))
    (h : nodupKeys acc.1) (hok : pluralPass tl warn acc gs = .ok acc') :
    nodupKeys acc'.1 := by
  induction gs generalizing acc with
  | nil => simp only [pluralPass] at hok; injection hok with hok; rw [← hok]; exact h
  | cons g rest ih =>
    simp only [pluralPass] at hok
    cases hg : processGroup tl warn acc g with
    | error e => rw [hg] at hok; cases hok
    | ok acc₁ =>
      rw [hg] at hok
      exact ih acc₁ (processGroup_nodup tl warn acc acc₁ g h hg) hok

/-! ### Singular-pass lemmas -/

theorem singularStep_preserves (tl : String) (warn : Bool)
    (st : Translations × List Warning) (tu : TransUnitData) (k : String)
    (e : Entry) (h : dictLookup st.1 k = some e) :
    dictLookup (singularStep tl warn st tu).1 k = some e := by
  unfold singularStep
  cases hr : resolveKey tu with
  | none => exact h
  | some k' =>
    by_cases hc : dictContains st.1 k'
    · simp only [if_pos hc]; exact h
    · simp only [if_neg hc]
      have hne : k' ≠ k := by
        intro heq
        subst heq
        exact hc ((dictContains_iff_lookup st.1 k').mpr ⟨e, h⟩)
      cases hd : singularDecision tu.target tu.source with
      | none => exact h
      | some p =>
        obtain ⟨v, fb⟩ := p
        cases fb with
        | false => simpa [dictLookup_insert_ne st.1 k' k (.string v) hne] using h
        | true => simpa [dictLookup_insert_ne st.1 k' k (.string v) hne] using h

theorem singularPass_preserves (tl : String) (warn : Bool)
    (st : Translations × List Warning) (us : List TransUnitData) (k : String)
    (e : Entry) (h : dictLookup st.1 k = some e) :
    dictLookup (singularPass tl warn st us).1 k = some e := by
  induction us generalizing st with
  | nil => exact h
  | cons tu rest ih =>
    exact ih (singularStep tl warn st tu)
      (singularStep_preserves tl warn st tu k e h)

theorem singularStep_nodup (tl : String) (warn : Bool)
    (st : Translations × List Warning) (tu : TransUnitData)
    (h : nodupKeys st.1) : nodupKeys (singularStep tl warn st tu).1 := by
  unfold singularStep
  cases hr : resolveKey tu with
  | none => exact h
  | some k =>
    by_cases hc : dictContains st.1 k
    · simp only [if_pos hc]; exact h
    · simp only [if_neg hc]
      cases hd : singularDecision tu.target tu.source with
      | none => exact h
      | some p =>
        obtain ⟨v, fb⟩ := p
        cases fb with
        | false => exact nodupKeys_insert st.1 k (.string v) h
        | true => exact nodupKeys_insert st.1 k (.string v) h

theorem singularPass_nodup (tl : String) (warn : Bool)
    (st : Translations × List Warning) (us : List TransUnitData)
    (h : nodupKeys st.1) : nodupKeys (singularPass tl warn st us).1 := by
  induction us generalizing st with
  | nil => exact h
  | cons tu rest ih =>
    exact ih (singularStep tl warn st tu) (singularStep_nodup tl warn st tu h)

/-! ### Aggregator lemmas -/

/-- The input document of a locale exists and parses successfully. -/
def okAt (files : String → Option XliffRoot) (l : Language) : Prop :=
  ∃ doc r, files l.locale = some doc ∧ parse_xliff_file doc = .ok r

theorem processLocales_skip_ok (files : String → Option XliffRoot)
    (pre rest : List Language) (acc : List (String × LocaleResult))
    (hok : ∀ l ∈ pre, okAt files l) :
    ∃ acc', processLocales files (pre ++ rest) acc =
      processLocales files rest acc' := by
  induction pre generalizing acc with
  | nil => exact ⟨acc, rfl⟩
  | cons lang pre' ih =>
    obtain ⟨doc, r, hf, hp⟩ := hok lang (List.mem_cons_self _ _)
    simp only [List.cons_append, processLocales, hf, hp]
    exact ih _ (fun l hl => hok l (List.mem_cons_of_mem _ hl))

theorem processLocales_ok_keys (files : String → Option XliffRoot)
    (langs : List Language) (acc : List (String × LocaleResult))
    (hok : ∀ l ∈ langs, okAt files l)
    (hnd : (acc.map Prod.fst ++ langs.map Language.locale).Nodup) :
    ∃ out, processLocales files langs acc = .ok out ∧
      out.map Prod.fst = acc.map Prod.fst ++ langs.map Language.locale := by
  induction langs generalizing acc with
  | nil => exact ⟨acc, rfl, by simp⟩
  | cons lang rest ih =>
    obtain ⟨doc, r, hf, hp⟩ := hok lang (List.mem_cons_self _ _)
    simp only [processLocales, hf, hp]
    have hdisj := (List.nodup_append.mp hnd).2.2
    have hnotin : dictContains acc lang.locale = false := by
      rw [dictContains_false_iff]
      intro hmem
      exact hdisj hmem (List.mem_cons_self _ _)
    rw [dictInsert_not_contains acc lang.locale
      ⟨r.target_language, r.translations, lang⟩ hnotin]
    have hnd' : ((acc ++ [(lang.locale,
        (⟨r.target_language, r.translations, lang⟩ : LocaleResult))]).map
          Prod.fst ++ rest.map Language.locale).Nodup := by
      rw [List.map_append]
      simp only [List.map_cons, List.map_nil]
      rw [List.append_assoc]
      simpa using hnd
    obtain ⟨out, ho, hkeys⟩ :=
      ih _ (fun l hl => hok l (List.mem_cons_of_mem _ hl)) hnd'
    refine ⟨out, ho, ?_⟩
    rw [hkeys, List.map_append]
    simp

/-! ### Claim theorems -/

/-- C1: for every translatable unit or plural-form member with a resolved
key, the extracted text follows the fallback trichotomy: a present non-empty
target text is used and no warning is emitted; otherwise a present non-empty
source text is used and exactly one warning referencing that unit's key is
appended (when warnings are enabled); otherwise no entry or form is produced
for the unit at all. -/
theorem fallback_trichotomy (tl : String) (warn : Bool) (trs : Translations)
    (ws : List Warning) (tu : TransUnitData) (k : String) :
    (resolveKey tu = some k → dictContains trs k = false →
      ((∀ t, tu.target = some (some t) → t ≠ "" →
          singularStep tl warn (trs, ws) tu =
            (dictInsert trs k (.string t), ws)) ∧
       (pyTruthyText tu.target = false →
          ∀ s, tu.source = some (some s) → s ≠ "" →
            singularStep tl warn (trs, ws) tu =
              (dictInsert trs k (.string s),
               if warn then ws ++ [⟨some k, none, tl⟩] else ws)) ∧
       (pyTruthyText tu.target = false → pyTruthyText tu.source = false →
          singularStep tl warn (trs, ws) tu = (trs, ws)))) ∧
    (∀ forms cg txt, tu.contextGroup = some cg →
      cg.pluralFormCtx = some (some txt) →
      ((∀ t, tu.target = some (some t) → t ≠ "" →
          pluralUnitStep tl warn (some k, forms, ws) tu =
            .ok (some k, dictInsert forms (pyFormOf txt) t, ws)) ∧
       (pyTruthyText tu.target = false →
          ∀ s, tu.source = some (some s) → s ≠ "" →
            pluralUnitStep tl warn (some k, forms, ws) tu =
              .ok (some k, dictInsert forms (pyFormOf txt) s,
                if warn then ws ++ [⟨some k, some (pyFormOf txt), tl⟩]
                else ws)) ∧
       (pyTruthyText tu.target = false → pyTruthyText tu.source = false →
          pluralUnitStep tl warn (some k, forms, ws) tu =
            .ok (some k, forms, ws)))) := by
  constructor
  · intro hk hc
    refine ⟨?_, ?_, ?_⟩
    · intro t ht hne
      simp [singularStep, hk, hc, ht, singularDecision_target t hne tu.source]
    · intro htg s hs hne
      simp [singularStep, hk, hc, hs,
        singularDecision_fallback tu.target htg s hne]
    · intro htg hsrc
      simp [singularStep, hk, hc,
        singularDecision_neither tu.target tu.source htg hsrc]
  · intro forms cg txt hcg hpf
    refine ⟨?_, ?_, ?_⟩
    · intro t ht hne
      simp [pluralUnitStep, hcg, hpf, updateResname, ht,
        pluralDecision_eq_singularDecision,
        singularDecision_target t hne tu.source]
    · intro htg s hs hne
      simp [pluralUnitStep, hcg, hpf, updateResname, hs,
        pluralDecision_eq_singularDecision,
        singularDecision_fallback tu.target htg s hne]
    · intro htg hsrc
      simp [pluralUnitStep, hcg, hpf, updateResname,
        pluralDecision_eq_singularDecision,
        singularDecision_neither tu.target tu.source htg hsrc]

/-- Witness for C1: a singular unit with id `greeting`, an empty target
element and source `Hello` falls back to the source and appends exactly one
warning naming `greeting`. -/
theorem fallback_trichotomy_witness :
    singularStep "de" true ([], [])
      ⟨none, some "greeting", some none, some (some "Hello"), none⟩ =
      (dictInsert [] "greeting" (.string "Hello"),
       if true then [] ++ [⟨some "greeting", none, "de"⟩] else []) :=
  ((fallback_trichotomy "de" true [] []
      ⟨none, some "greeting", some none, some (some "Hello"), none⟩
      "greeting").1 rfl rfl).2.1 rfl "Hello" rfl (by decide)

/-- C2: once a resource key has been emitted as a Plural entry by the
plural-group pass, the singular pass never overwrites or duplicates it: the
key still maps to the same Plural entry afterwards, and no singular string
entry for that key is present. -/
theorem plural_entry_never_overwritten (tl : String) (warn : Bool)
    (body : List BodyItem) (trs : Translations) (ws : List Warning)
    (k : String) (fs : List (String × String))
    (hp : pluralPass tl warn ([], []) (docPluralGroups body) = .ok (trs, ws))
    (hk : dictLookup trs k = some (.plural fs)) :
    dictLookup (singularPass tl warn (trs, ws) (docUnits body)).1 k =
      some (.plural fs) ∧
    ∀ v, (k, Entry.string v) ∉
      (singularPass tl warn (trs, ws) (docUnits body)).1 := by
  have h1 := singularPass_preserves tl warn (trs, ws) (docUnits body) k _ hk
  refine ⟨h1, ?_⟩
  intro v hmem
  have hnd0 : nodupKeys (α := Entry) [] := by simp [nodupKeys]
  have hnd1 : nodupKeys trs :=
    pluralPass_nodup tl warn ([], []) (trs, ws) (docPluralGroups body) hnd0 hp
  have hnd2 : nodupKeys (singularPass tl warn (trs, ws) (docUnits body)).1 :=
    singularPass_nodup tl warn (trs, ws) (docUnits body) hnd1
  have h2 := dictLookup_eq_of_mem_nodup _ k (Entry.string v) hnd2 hmem
  rw [h1] at h2
  simp at h2

/-- Witness for C2: a plural group claiming `cart.count` keeps its Plural
entry even though a later standalone unit shares that key. -/
theorem plural_entry_never_overwritten_witness :
    dictLookup (singularPass "de" true
        ([("cart.count", .plural [("one", "1 item")])], [])
        (docUnits
          [.group (some "x-gettext-plurals")
            [⟨some "cart.count", none, some (some "1 item"), none,
              some ⟨some (some "plural:one")⟩⟩],
           .unit ⟨some "cart.count", none, some (some "OVERRIDE"), none,
             none⟩])).1 "cart.count" = some (.plural [("one", "1 item")]) ∧
    ∀ v, ("cart.count", Entry.string v) ∉
      (singularPass "de" true
        ([("cart.count", .plural [("one", "1 item")])], [])
        (docUnits
          [.group (some "x-gettext-plurals")
            [⟨some "cart.count", none, some (some "1 item"), none,
              some ⟨some (some "plural:one")⟩⟩],
           .unit ⟨some "cart.count", none, some (some "OVERRIDE"), none,
             none⟩])).1 :=
  plural_entry_never_overwritten "de" true
    [.group (some "x-gettext-plurals")
      [⟨some "cart.count", none, some (some "1 item"), none,
        some ⟨some (some "plural:one")⟩⟩],
     .unit ⟨some "cart.count", none, some (some "OVERRIDE"), none, none⟩]
    [("cart.count", .plural [("one", "1 item")])] [] "cart.count"
    [("one", "1 item")] rfl rfl

/-- C8: the text-selection and warning decision applied per (key, form) pair
is the same function on the plural path and the singular path. -/
theorem decision_policies_agree (target source : Option (Option String)) :
    pluralDecision target source = singularDecision target source := rfl

/-- C9: duplicate keys resolve first-wins in the singular pass — a unit
whose key is already claimed is skipped entirely, and no later singular unit
can change an existing binding — while among plural groups sharing one key
the last group's forms overwrite the earlier ones. -/
theorem duplicate_key_resolution (tl : String) (warn : Bool) :
    (∀ st tu k, resolveKey tu = some k → dictContains st.1 k = true →
       singularStep tl warn st tu = st) ∧
    (∀ st us k e, dictLookup st.1 k = some e →
       dictLookup (singularPass tl warn st us).1 k = some e) ∧
    (∀ acc g rn forms ws' k,
       pluralUnitsFold tl warn (none, [], acc.2) g = .ok (rn, forms, ws') →
       rn = some k → k ≠ "" → forms ≠ [] →
       processGroup tl warn acc g =
         .ok (dictInsert acc.1 k (.plural forms), ws') ∧
       dictLookup (dictInsert acc.1 k (.plural forms)) k =
         some (.plural forms)) := by
  refine ⟨?_, ?_, ?_⟩
  · intro st tu k hk hc
    simp [singularStep, hk, hc]
  · intro st us k e h
    exact singularPass_preserves tl warn st us k e h
  · intro acc g rn forms ws' k hf hrn hk hforms
    subst hrn
    constructor
    · simp [processGroup, hf, hk, hforms]
    · exact dictLookup_insert_self acc.1 k (.plural forms)

/-- Witness for C9: a second singular unit with the already-claimed key
`k` is skipped, leaving the earlier binding in place. -/
theorem duplicate_key_resolution_witness :
    singularStep "de" true ([("k", Entry.string "first")], [])
      ⟨some "k", none, some (some "second"), none, none⟩ =
      ([("k", Entry.string "first")], []) :=
  (duplicate_key_resolution "de" true).1 ([("k", Entry.string "first")], [])
    ⟨some "k", none, some (some "second"), none, none⟩ "k" rfl rfl

/-- C5: a plural group that yields zero resolved forms, or whose resolved
key is absent or empty, is silently dropped: the translations dict is left
exactly as it was, so the group contributes no entry. -/
theorem plural_group_dropped (tl : String) (warn : Bool)
    (acc : Translations × List Warning) (g : List TransUnitData)
    (rn : Option String) (forms : List (String × String)) (ws' : List Warning)
    (hf : pluralUnitsFold tl warn (none, [], acc.2) g = .ok (rn, forms, ws')) :
    (forms = [] → processGroup tl warn acc g = .ok (acc.1, ws')) ∧
    ((∀ s, rn = some s → s = "") →
       processGroup tl warn acc g = .ok (acc.1, ws')) := by
  constructor
  · intro hforms
    subst hforms
    cases rn with
    | none => simp [processGroup, hf]
    | some s =>
      by_cases hs : s = ""
      · simp [processGroup, hf, hs]
      · simp [processGroup, hf, hs]
  · intro hrn
    cases rn with
    | none => simp [processGroup, hf]
    | some s => simp [processGroup, hf, hrn s rfl]

/-- Witness for C5: a group whose only member lacks a plural-form annotation
resolves zero forms and leaves the translations dict unchanged. -/
theorem plural_group_dropped_witness :
    processGroup "de" true ([], [])
      [⟨some "k", none, some (some "x"), none, none⟩] = .ok ([], []) :=
  (plural_group_dropped "de" true ([], [])
    [⟨some "k", none, some (some "x"), none, none⟩] (some "k") [] [] rfl).1 rfl

/-- A document with a valid header whose plural group contains a member with
a text-less plural-form context element. -/
def headerBadDoc : XliffRoot :=
  ⟨some (some "de"),
   [.group (some "x-gettext-plurals")
     [⟨none, some "k", none, none, some ⟨some none⟩⟩]]⟩

/-- C6 counterexample: a document whose file container and target-language
attribute are both present can nevertheless fail to parse (with the
`AttributeError` raised on a text-less plural-form context), so parsing does
not return a document whenever the two named error conditions are absent. -/
theorem header_contract_counterexample :
    headerBadDoc.file = some (some "de") ∧
    parse_xliff_file headerBadDoc = .error .attributeError :=
  ⟨rfl, rfl⟩

/-- C6 amended: parsing fails with the structure error exactly when the file
container is absent, fails with the missing-metadata error exactly when the
container is present but lacks the target-language attribute, and whenever
it returns a document that document's targetLanguageCode equals the
attribute's value (with the attribute present, parsing may still fail on a
text-less plural-form annotation instead of returning a document). -/
theorem header_contract (doc : XliffRoot) (w : Bool) :
    (parse_xliff_file doc w = .error .invalidStructure ↔ doc.file = none) ∧
    (parse_xliff_file doc w = .error .missingTargetLanguage ↔
       doc.file = some none) ∧
    (∀ tl r, doc.file = some (some tl) → parse_xliff_file doc w = .ok r →
       r.target_language = tl) := by
  cases hfile : doc.file with
  | none =>
    refine ⟨?_, ?_, ?_⟩
    · simp [parse_xliff_file, hfile]
    · simp [parse_xliff_file, hfile]
    · intro tl r htl
      simp at htl
  | some attr =>
    cases attr with
    | none =>
      refine ⟨?_, ?_, ?_⟩
      · simp [parse_xliff_file, hfile]
      · simp [parse_xliff_file, hfile]
      · intro tl r htl
        simp at htl
    | some tl =>
      refine ⟨?_, ?_, ?_⟩
      · cases hp : pluralPass tl w ([], []) (docPluralGroups doc.body) with
        | error e =>
          have he := (pluralPass_error tl w ([], []) _ e hp).1
          subst he
          simp [parse_xliff_file, hfile, hp]
        | ok acc => simp [parse_xliff_file, hfile, hp]
      · cases hp : pluralPass tl w ([], []) (docPluralGroups doc.body) with
        | error e =>
          have he := (pluralPass_error tl w ([], []) _ e hp).1
          subst he
          simp [parse_xliff_file, hfile, hp]
        | ok acc => simp [parse_xliff_file, hfile, hp]
      · intro tl' r htl hok
        have htl2 : tl' = tl := by
          injection htl with h1
          injection h1 with h2
          exact h2.symm
        rw [htl2]
        simp only [parse_xliff_file, hfile] at hok
        cases hp : pluralPass tl w ([], []) (docPluralGroups doc.body) with
        | error e => rw [hp] at hok; cases hok
        | ok acc =>
          rw [hp] at hok
          injection hok with hok
          rw [← hok]

/-- Witness for C6 (amended): a document lacking the file container parses
to exactly the structure error. -/
theorem header_contract_witness :
    parse_xliff_file ⟨none, []⟩ true = .error .invalidStructure :=
  (header_contract ⟨none, []⟩ true).1.mpr rfl

/-- C7: for a plural-group member carrying a nested context annotation with
a plural-form marker, the forms-map key used is the substring of the
annotation's text after the final separator, trimmed of surrounding
whitespace and lower-cased (`pyFormOf`); members without such an annotation
contribute no form. -/
theorem plural_form_marker_resolution (tl : String) (warn : Bool)
    (rn : Option String) (forms : List (String × String)) (ws : List Warning)
    (tu : TransUnitData) :
    (∀ cg txt, tu.contextGroup = some cg →
       cg.pluralFormCtx = some (some txt) →
       ((∀ v fb, pluralDecision tu.target tu.source = some (v, fb) →
           ∃ ws', pluralUnitStep tl warn (rn, forms, ws) tu =
             .ok (updateResname rn tu,
                  dictInsert forms (pyFormOf txt) v, ws')) ∧
        (pluralDecision tu.target tu.source = none →
           pluralUnitStep tl warn (rn, forms, ws) tu =
             .ok (updateResname rn tu, forms, ws)))) ∧
    (tu.contextGroup = none →
       pluralUnitStep tl warn (rn, forms, ws) tu =
         .ok (updateResname rn tu, forms, ws)) ∧
    (∀ cg, tu.contextGroup = some cg → cg.pluralFormCtx = none →
       pluralUnitStep tl warn (rn, forms, ws) tu =
         .ok (updateResname rn tu, forms, ws)) := by
  refine ⟨?_, ?_, ?_⟩
  · intro cg txt hcg hpf
    constructor
    · intro v fb hd
      cases fb with
      | false => exact ⟨ws, by simp [pluralUnitStep, hcg, hpf, hd]⟩
      | true =>
        exact ⟨if warn then
            ws ++ [⟨updateResname rn tu, some (pyFormOf txt), tl⟩] else ws,
          by simp [pluralUnitStep, hcg, hpf, hd]⟩
    · intro hd
      simp [pluralUnitStep, hcg, hpf, hd]
  · intro hcg
    simp [pluralUnitStep, hcg]
  · intro cg hcg hpf
    simp [pluralUnitStep, hcg, hpf]

/-- Witness for C7: annotation text `" plural:Few "` yields the forms-map
key `few` (substring after the final colon, trimmed, lower-cased). -/
theorem plural_form_marker_resolution_witness :
    ∃ ws', pluralUnitStep "de" true (some "k", [], [])
      ⟨none, none, some (some "X"), none,
        some ⟨some (some " plural:Few ")⟩⟩ =
      .ok (some "k", [("few", "X")], ws') :=
  ((plural_form_marker_resolution "de" true (some "k") [] []
    ⟨none, none, some (some "X"), none,
      some ⟨some (some " plural:Few ")⟩⟩).1
    ⟨some (some " plural:Few ")⟩ " plural:Few " rfl rfl).1 "X" false rfl

/-- C10: a plural-form context element present without text makes parsing
the document raise (`AttributeError`), which the aggregator wraps as a
locale processing error; under the precondition that every plural-form
context element carries text, this failure branch is unreachable and
parsing succeeds (given a valid header). -/
theorem missing_form_text_raises :
    (∀ (doc : XliffRoot) (tl : String) (w : Bool),
       doc.file = some (some tl) →
       (∃ g ∈ docPluralGroups doc.body, ∃ tu ∈ g, isBadUnit tu = true) →
       parse_xliff_file doc w = .error .attributeError) ∧
    (∀ (doc : XliffRoot) (tl : String) (w : Bool),
       doc.file = some (some tl) →
       (∀ g ∈ docPluralGroups doc.body, ∀ tu ∈ g, isBadUnit tu = false) →
       ∃ r, parse_xliff_file doc w = .ok r) ∧
    (∀ (files : String → Option XliffRoot) (lang : Language)
       (rest : List Language) (acc : List (String × LocaleResult))
       (doc : XliffRoot) (e : ParseError),
       files lang.locale = some doc → parse_xliff_file doc = .error e →
       processLocales files (lang :: rest) acc =
         .error (.localeProcessing lang.locale e)) := by
  refine ⟨?_, ?_, ?_⟩
  · intro doc tl w hfile hbad
    simp only [parse_xliff_file, hfile]
    rw [pluralPass_bad tl w ([], []) _ hbad]
  · intro doc tl w hfile hgood
    obtain ⟨acc, hacc⟩ := pluralPass_ok_of_no_bad tl w ([], []) _ hgood
    exact ⟨⟨(singularPass tl w acc (docUnits doc.body)).1, tl,
        (singularPass tl w acc (docUnits doc.body)).2⟩,
      by simp [parse_xliff_file, hfile, hacc]⟩
  · intro files lang rest acc doc e hf hp
    simp [processLocales, hf, hp]

/-- A one-locale filesystem whose single document is `headerBadDoc`. -/
def badFiles : String → Option XliffRoot := fun l =>
  if l = "xx" then some headerBadDoc else none

/-- Witness for C10: the aggregator wraps the `AttributeError` from the
text-less plural-form context with the locale identifier. -/
theorem missing_form_text_raises_witness :
    processLocales badFiles [⟨"xx"⟩] [] =
      .error (.localeProcessing "xx" .attributeError) :=
  missing_form_text_raises.2.2 badFiles ⟨"xx"⟩ [] [] headerBadDoc
    .attributeError rfl rfl

/-- A configuration whose source language and single target language share
the locale `en`. -/
def dupLocaleSetup : SetupValues := ⟨⟨"en"⟩, [⟨"en"⟩], []⟩

/-- A filesystem carrying the single (valid) document `en.xliff`. -/
def dupLocaleFiles : String → Option XliffRoot := fun l =>
  if l = "en" then some ⟨some (some "en"), []⟩ else none

/-- C3 counterexample: with two configured languages sharing locale `en`,
whose input document exists and parses successfully, aggregation succeeds
but the locale map has a single key instead of one key per configured
language. -/
theorem locale_count_counterexample :
    ([dupLocaleSetup.source_language] ++
        dupLocaleSetup.target_languages).length = 2 ∧
    dupLocaleFiles "en" = some ⟨some (some "en"), []⟩ ∧
    parse_xliff_file ⟨some (some "en"), []⟩ = .ok ⟨[], "en", []⟩ ∧
    (parse_all_xliff_files dupLocaleSetup [] dupLocaleFiles).map
      (fun res => res.locales.map Prod.fst) = .ok ["en"] :=
  ⟨rfl, rfl, rfl, rfl⟩

/-- C3 amended: for every configuration of N languages (source plus
targets) with pairwise-distinct locale identifiers, where every configured
locale's input document exists and parses successfully, aggregation returns
a result whose locale map has exactly N keys, one per configured locale, in
configuration order. -/
theorem locale_map_complete (setup : SetupValues)
    (glossary_dict : List (String × String))
    (files : String → Option XliffRoot)
    (hnd : (([setup.source_language] ++ setup.target_languages).map
      Language.locale).Nodup)
    (hok : ∀ l ∈ [setup.source_language] ++ setup.target_languages,
      okAt files l) :
    (parse_all_xliff_files setup glossary_dict files).map
      (fun res => res.locales.map Prod.fst) =
      .ok (([setup.source_language] ++ setup.target_languages).map
        Language.locale) := by
  obtain ⟨out, ho, hkeys⟩ :=
    processLocales_ok_keys files _ [] hok (by simpa using hnd)
  simp only [List.singleton_append] at ho hkeys
  simp only [List.map_nil, List.nil_append, List.map_cons] at hkeys
  simp [parse_all_xliff_files, ho, Except.map, hkeys]

/-- A two-language configuration with distinct locales `en` and `de`. -/
def twoLocaleSetup : SetupValues := ⟨⟨"en"⟩, [⟨"de"⟩], []⟩

/-- A filesystem carrying valid documents for `en` and `de`. -/
def twoLocaleFiles : String → Option XliffRoot := fun l =>
  if l = "en" then some ⟨some (some "en"), []⟩
  else if l = "de" then some ⟨some (some "de"), []⟩ else none

/-- Witness for C3 (amended): both configured locales end up as the locale
map's keys. -/
theorem locale_map_complete_witness :
    (parse_all_xliff_files twoLocaleSetup [] twoLocaleFiles).map
      (fun res => res.locales.map Prod.fst) = .ok ["en", "de"] :=
  locale_map_complete twoLocaleSetup [] twoLocaleFiles (by decide)
    (by
      intro l hl
      simp only [twoLocaleSetup, List.singleton_append, List.mem_cons,
        List.not_mem_nil, or_false] at hl
      rcases hl with rfl | rfl
      · exact ⟨⟨some (some "en"), []⟩, ⟨[], "en", []⟩, rfl, rfl⟩
      · exact ⟨⟨some (some "de"), []⟩, ⟨[], "de", []⟩, rfl, rfl⟩)

/-- C4: if the input document of a configured locale is missing (all earlier
locales being processable), aggregation fails with an error identifying
that locale — whatever the later locales are, so none of them is processed —
and a parse failure for a locale likewise aborts the whole run wrapped with
the locale identifier; no result is produced in either case. -/
theorem aggregation_fail_fast (setup : SetupValues)
    (glossary_dict : List (String × String))
    (files : String → Option XliffRoot) (pre : List Language) (l : Language)
    (post : List Language)
    (hsplit : [setup.source_language] ++ setup.target_languages =
      pre ++ l :: post)
    (hpre : ∀ p ∈ pre, okAt files p) :
    (files l.locale = none →
       parse_all_xliff_files setup glossary_dict files =
         .error (.fileNotFound l.locale)) ∧
    (∀ doc e, files l.locale = some doc → parse_xliff_file doc = .error e →
       parse_all_xliff_files setup glossary_dict files =
         .error (.localeProcessing l.locale e)) := by
  obtain ⟨acc', hskip⟩ := processLocales_skip_ok files pre (l :: post) [] hpre
  constructor
  · intro hmiss
    unfold parse_all_xliff_files
    rw [hsplit, hskip]
    simp [processLocales, hmiss]
  · intro doc e hdoc hperr
    unfold parse_all_xliff_files
    rw [hsplit, hskip]
    simp [processLocales, hdoc, hperr]

/-- A filesystem missing the `de` document. -/
def missingDeFiles : String → Option XliffRoot := fun l =>
  if l = "en" then some ⟨some (some "en"), []⟩ else none

/-- Witness for C4: with the `de` document missing, aggregation fails
naming `de`. -/
theorem aggregation_fail_fast_witness :
    parse_all_xliff_files twoLocaleSetup [] missingDeFiles =
      .error (.fileNotFound "de") :=
  (aggregation_fail_fast twoLocaleSetup [] missingDeFiles [⟨"en"⟩] ⟨"de"⟩ []
    rfl
    (by
      intro p hp
      simp only [List.mem_cons, List.not_mem_nil, or_false] at hp
      subst hp
      exact ⟨⟨some (some "en"), []⟩, ⟨[], "en", []⟩, rfl, rfl⟩)).1 rfl

end Xliff
